import Mathlib

/-!
# Verification of the ChromeHarvest page-scraper core

A shallow embedding of the scraper in `main.py` together with models of the
library collaborators it leans on (CPython `urllib.parse` URL resolution and
POSIX `os.path` path manipulation, both translated from the CPython sources,
control-character pre-stripping omitted since all inputs considered here are
plain printable strings).  All definitions are executable; theorems at the end
settle the specification claims.

Everything is computed on `List Char`; `String` appears only at interfaces.
-/

/-! ## Python string primitives -/

/-- ASCII lower-casing of one character (the only case `str.lower` needs on the
URL/extension strings manipulated by the scraper). -/
def asciiLower (c : Char) : Char :=
  if 'A' ≤ c ∧ c ≤ 'Z' then Char.ofNat (c.toNat + 32) else c

/-- Python `str.lower` restricted to ASCII input. -/
def pyLower (s : String) : String := String.mk (s.toList.map asciiLower)

/-- Split at the first occurrence of `c` (Python `str.split(c, 1)` when `c`
occurs); `none` when `c` does not occur. -/
def splitAtFirst (c : Char) : List Char → Option (List Char × List Char)
  | [] => none
  | x :: xs =>
    if x = c then some ([], xs)
    else
      match splitAtFirst c xs with
      | none => none
      | some (a, b) => some (x :: a, b)

/-- Index of the first occurrence of `c` (Python `str.find` without the -1). -/
def findIdxOf (c : Char) (l : List Char) : Option Nat :=
  l.findIdx? (fun x => x == c)

/-- Index of the last occurrence of `c` (Python `str.rfind` without the -1). -/
def rfindIdxOf (c : Char) (l : List Char) : Option Nat :=
  match findIdxOf c l.reverse with
  | none => none
  | some i => some (l.length - 1 - i)

/-- Python `str.split(c)`: always at least one (possibly empty) piece. -/
def splitOnChar (c : Char) : List Char → List (List Char)
  | [] => [[]]
  | x :: xs =>
    let r := splitOnChar c xs
    if x = c then [] :: r
    else
      match r with
      | [] => [[x]]
      | y :: ys => (x :: y) :: ys

/-- Python `sep.join(pieces)`. -/
def joinListsWith (sep : List Char) : List (List Char) → List Char
  | [] => []
  | [x] => x
  | x :: xs => x ++ sep ++ joinListsWith sep xs

/-- `pat` is a prefix of `s` (Python `str.startswith`). -/
def listIsPrefixOf : List Char → List Char → Bool
  | [], _ => true
  | _ :: _, [] => false
  | a :: as, b :: bs => a == b && listIsPrefixOf as bs

/-- Python `s.endswith(pat)`. -/
def strEndsWithS (s pat : String) : Bool :=
  listIsPrefixOf pat.toList.reverse s.toList.reverse

/-- Python `s.replace(old, new)` for a one-character `old`. -/
def pyReplaceChar (s : String) (old : Char) (new : String) : String :=
  String.mk (joinListsWith new.toList (splitOnChar old s.toList))

/-- Python `s.split(c)` giving `String` pieces. -/
def splitSlash (s : String) : List String :=
  (splitOnChar '/' s.toList).map String.mk

/-- Python `'/'.join(pieces)`. -/
def joinSlash (l : List String) : String :=
  String.mk (joinListsWith ['/'] (l.map String.toList))

/-! ## `urllib.parse` model (CPython) -/

/-- Result of `urllib.parse.urlsplit`. -/
structure UrlSplitParts where
  scheme : String
  netloc : String
  path : String
  query : String
  fragment : String
deriving Repr, DecidableEq

/-- CPython `scheme_chars`. -/
def schemeChars : List Char :=
  "abcdefghijklmnopqrstuvwxyzABCDEFGHIJKLMNOPQRSTUVWXYZ0123456789+-.".toList

def isAsciiAlpha (c : Char) : Bool :=
  ('a' ≤ c && c ≤ 'z') || ('A' ≤ c && c ≤ 'Z')

/-- The scheme-recognition step of CPython `urlsplit`: a scheme is split off
when a `:` occurs at position `> 0`, the first character is an ASCII letter
and the rest of the candidate consists of `scheme_chars`. -/
def splitScheme (url : List Char) : Option (List Char × List Char) :=
  match findIdxOf ':' url with
  | none => none
  | some i =>
    if i = 0 then none
    else
      match url.take i with
      | [] => none
      | c0 :: rest =>
        if isAsciiAlpha c0 && rest.all (fun c => schemeChars.contains c) then
          some ((url.take i).map asciiLower, url.drop (i + 1))
        else none

/-- CPython `_splitnetloc`: the netloc extends to the first `/`, `?` or `#`. -/
def splitNetlocL : List Char → List Char × List Char
  | [] => ([], [])
  | c :: cs =>
    if c = '/' ∨ c = '?' ∨ c = '#' then ([], c :: cs)
    else
      let r := splitNetlocL cs
      (c :: r.1, r.2)

/-- CPython `urllib.parse.urlsplit url scheme0` (IPv6-bracket validation
omitted: no bracketed hosts occur in this development). -/
def urlsplit (url0 scheme0 : String) : UrlSplitParts :=
  let url := url0.toList
  let sp := splitScheme url
  let scheme := match sp with | some p => p.1 | none => scheme0.toList
  let rest1 := match sp with | some p => p.2 | none => url
  let hasNetloc := rest1.take 2 = ['/', '/']
  let netloc := if hasNetloc then (splitNetlocL (rest1.drop 2)).1 else []
  let rest2 := if hasNetloc then (splitNetlocL (rest1.drop 2)).2 else rest1
  let fragSplit := splitAtFirst '#' rest2
  let frag := match fragSplit with | some p => p.2 | none => []
  let rest3 := match fragSplit with | some p => p.1 | none => rest2
  let querySplit := splitAtFirst '?' rest3
  let query := match querySplit with | some p => p.2 | none => []
  let path := match querySplit with | some p => p.1 | none => rest3
  { scheme := String.mk scheme
    netloc := String.mk netloc
    path := String.mk path
    query := String.mk query
    fragment := String.mk frag }

/-- Result of `urllib.parse.urlparse`. -/
structure UrlParts where
  scheme : String
  netloc : String
  path : String
  params : String
  query : String
  fragment : String
deriving Repr, DecidableEq

/-- CPython `_splitparams` guarded by the caller's `';' in url` test. -/
def splitParamsL (u : List Char) : List Char × List Char :=
  if u.contains ';' then
    if u.contains '/' then
      match rfindIdxOf '/' u with
      | none => (u, [])
      | some r =>
        match findIdxOf ';' (u.drop r) with
        | none => (u, [])
        | some j => (u.take (r + j), u.drop (r + j + 1))
    else
      match findIdxOf ';' u with
      | none => (u, [])
      | some i => (u.take i, u.drop (i + 1))
  else (u, [])

/-- CPython `urllib.parse.urlparse url scheme0`. -/
def urlparse (url scheme0 : String) : UrlParts :=
  let sr := urlsplit url scheme0
  let pp := splitParamsL sr.path.toList
  { scheme := sr.scheme, netloc := sr.netloc, path := String.mk pp.1,
    params := String.mk pp.2, query := sr.query, fragment := sr.fragment }

/-- CPython `urllib.parse.urlunsplit`. -/
def urlunsplit (scheme netloc path query fragment : String) : String :=
  let u0 := path.toList
  let u1 :=
    if netloc ≠ "" ∨ u0.take 2 = ['/', '/'] then
      let u := if u0 ≠ [] ∧ u0.take 1 ≠ ['/'] then '/' :: u0 else u0
      '/' :: '/' :: (netloc.toList ++ u)
    else u0
  let u2 := if scheme ≠ "" then scheme.toList ++ ':' :: u1 else u1
  let u3 := if query ≠ "" then u2 ++ '?' :: query.toList else u2
  let u4 := if fragment ≠ "" then u3 ++ '#' :: fragment.toList else u3
  String.mk u4

/-- CPython `urllib.parse.urlunparse`. -/
def urlunparse (scheme netloc path params query fragment : String) : String :=
  let url := if params ≠ "" then path ++ ";" ++ params else path
  urlunsplit scheme netloc url query fragment

/-- CPython `uses_relative`. -/
def usesRelative : List String :=
  ["", "ftp", "http", "gopher", "nntp", "imap", "wais", "file", "https", "shttp",
   "mms", "prospero", "rtsp", "rtspu", "sftp", "svn", "svn+ssh", "ws", "wss"]

/-- CPython `uses_netloc`. -/
def usesNetloc : List String :=
  ["", "ftp", "http", "gopher", "nntp", "telnet", "imap", "wais", "file", "mms",
   "https", "shttp", "snews", "prospero", "rtsp", "rtspu", "rsync", "svn",
   "svn+ssh", "sftp", "nfs", "git", "git+ssh", "ws", "wss", "itms-services"]

/-- Drop empty segments keeping the last one (tail-half of CPython urljoin's
`segments[1:-1] = filter(None, segments[1:-1])`). -/
def dropMiddleEmpties : List String → List String
  | [] => []
  | [x] => [x]
  | x :: xs => if x = "" then dropMiddleEmpties xs else x :: dropMiddleEmpties xs

/-- CPython urljoin's `segments[1:-1] = filter(None, segments[1:-1])`: first and
last segments are kept, empty middle segments removed. -/
def filterMiddle : List String → List String
  | [] => []
  | x :: xs => x :: dropMiddleEmpties xs

/-- The `resolved_path` loop of CPython `urljoin` (`..` pops, `.` is skipped,
popping an empty stack is silently ignored). -/
def resolveSegs : List String → List String → List String
  | acc, [] => acc
  | acc, s :: rest =>
    if s = ".." then resolveSegs acc.dropLast rest
    else if s = "." then resolveSegs acc rest
    else resolveSegs (acc ++ [s]) rest

/-- CPython `urllib.parse.urljoin`. -/
def urljoin (base url : String) : String :=
  if base = "" then url
  else if url = "" then base
  else
    let b := urlparse base ""
    let r := urlparse url b.scheme
    if r.scheme ≠ b.scheme ∨ ¬ usesRelative.contains r.scheme then url
    else if usesNetloc.contains r.scheme ∧ r.netloc ≠ "" then
      urlunparse r.scheme r.netloc r.path r.params r.query r.fragment
    else
      let netloc := if usesNetloc.contains r.scheme then b.netloc else r.netloc
      if r.path = "" ∧ r.params = "" then
        let query := if r.query = "" then b.query else r.query
        urlunparse r.scheme netloc b.path b.params query r.fragment
      else
        let baseParts0 := splitSlash b.path
        let baseParts :=
          if baseParts0.getLastD "" ≠ "" then baseParts0.dropLast else baseParts0
        let segments :=
          if r.path.toList.take 1 = ['/'] then splitSlash r.path
          else filterMiddle (baseParts ++ splitSlash r.path)
        let resolved0 := resolveSegs [] segments
        let resolved :=
          if segments.getLastD "" = "." ∨ segments.getLastD "" = ".." then
            resolved0 ++ [""]
          else resolved0
        let joined := joinSlash resolved
        let path := if joined = "" then "/" else joined
        urlunparse r.scheme netloc path r.params r.query r.fragment

/-- CPython `urllib.parse.urldefrag`. -/
def urldefrag (url : String) : String × String :=
  if url.toList.contains '#' then
    let p := urlparse url ""
    (urlunparse p.scheme p.netloc p.path p.params p.query "", p.fragment)
  else (url, "")

/-! ## POSIX `os.path` model (CPython `posixpath`, the platform the scraper
runs on, so `os.sep = '/'`) -/

/-- Python `s.lstrip('/')`. -/
def lstripSlash (s : String) : String :=
  String.mk (s.toList.dropWhile (fun c => c == '/'))

/-- The component loop of CPython `posixpath.normpath`. -/
def normpathComps (initialSlashes : Nat) : List String → List String → List String
  | acc, [] => acc
  | acc, comp :: rest =>
    if comp = "" ∨ comp = "." then normpathComps initialSlashes acc rest
    else if comp ≠ ".." ∨ (initialSlashes = 0 ∧ acc = []) ∨
        (acc ≠ [] ∧ acc.getLastD "" = "..") then
      normpathComps initialSlashes (acc ++ [comp]) rest
    else if acc ≠ [] then normpathComps initialSlashes acc.dropLast rest
    else normpathComps initialSlashes acc rest

/-- CPython `posixpath.normpath`. -/
def normpath (path : String) : String :=
  if path = "" then "."
  else
    let l := path.toList
    let initialSlashes : Nat :=
      if l.take 1 = ['/'] then
        if l.take 2 = ['/', '/'] ∧ l.take 3 ≠ ['/', '/', '/'] then 2 else 1
      else 0
    let newComps := normpathComps initialSlashes [] (splitSlash path)
    let p := String.mk (List.replicate initialSlashes '/') ++ joinSlash newComps
    if p = "" then "." else p

/-- CPython `posixpath.splitext`: the extension starts at the last dot of the
basename unless the basename consists only of leading dots up to it. -/
def splitext (p : String) : String × String :=
  let l := p.toList
  match rfindIdxOf '.' l with
  | none => (p, "")
  | some d =>
    let s : Nat := match rfindIdxOf '/' l with | none => 0 | some si => si + 1
    if s ≤ d then
      if ((l.drop s).take (d - s)).any (fun c => c != '.') then
        (String.mk (l.take d), String.mk (l.drop d))
      else (p, "")
    else (p, "")

/-- CPython `posixpath.join` on two components. -/
def pjoin2 (a b : String) : String :=
  if b.toList.take 1 = ['/'] then b
  else if a = "" ∨ a.toList.getLast? = some '/' then a ++ b
  else a ++ "/" ++ b

/-- CPython `posixpath.join` on three components. -/
def pjoin3 (a b c : String) : String := pjoin2 (pjoin2 a b) c

/-- Length of the longest common prefix (CPython `os.path.commonprefix` on the
two component lists of `relpath`). -/
def commonPrefixLen : List String → List String → Nat
  | a :: as, b :: bs => if a = b then commonPrefixLen as bs + 1 else 0
  | _, _ => 0

/-- CPython `posixpath.abspath`, with the process working directory passed
explicitly. -/
def abspath (cwd path : String) : String :=
  if path.toList.take 1 = ['/'] then normpath path else normpath (pjoin2 cwd path)

/-- CPython `posixpath.relpath path start`, with the working directory passed
explicitly. -/
def relpath (cwd path start : String) : String :=
  let startList := (splitSlash (abspath cwd start)).filter (fun x => x != "")
  let pathList := (splitSlash (abspath cwd path)).filter (fun x => x != "")
  let i := commonPrefixLen startList pathList
  let rel := List.replicate (startList.length - i) ".." ++ pathList.drop i
  if rel = [] then "." else joinSlash rel

/-! ## The scraper itself (`main.py`) -/

/-- `main.py` `categorize_asset` (lines 57–71): category from the lower-cased
`os.path.splitext` extension via the source's chain of conditionals. -/
def categorize_asset (path : String) : String :=
  let ext := pyLower (splitext path).2
  if ext = ".css" then "css"
  else if ext = ".js" then "js"
  else if [".png", ".jpg", ".jpeg", ".gif", ".svg", ".webp", ".ico"].contains ext then "images"
  else "assets"

/-- `main.py` `make_local_path` (lines 74–94), minus the `os.makedirs` side
effect.  The source parses `asset_url` once, joins and re-parses when the
netloc is empty; since parsing is pure this equals parsing the final
`real_url` directly, which is how it is written here. -/
def make_local_path (base_dir asset_url base_url : String) : String × String :=
  let real_url :=
    if (urlparse asset_url "").netloc = "" then urljoin base_url asset_url else asset_url
  let parsed := urlparse real_url ""
  let rel_path := normpath (lstripSlash parsed.path)
  (pjoin3 base_dir (categorize_asset rel_path) rel_path, real_url)

/-- Outcome of one HTTP GET as the scraper can observe it. -/
inductive FetchResult where
  | ok (body : List Nat)
  | httpError (status : Nat)
  | connError
  | timeoutError
deriving Repr, DecidableEq

/-- The Python exceptions that matter to the scraper's handlers. -/
inductive PyErr where
  | httpError (status : Nat)
  | connectionError
  | timeout
  | other (msg : String)
deriving Repr, DecidableEq

/-- The `try`-body of `main.py` `download_asset` (lines 110–116):
`session.get` + `raise_for_status` + file write, as an `Except` value —
`error` is an exception escaping the body. -/
def tryDownloadBody : FetchResult → Except PyErr Bool
  | .ok _ => .ok true
  | .httpError s => .error (.httpError s)
  | .connError => .error .connectionError
  | .timeoutError => .error .timeout

/-- `main.py` `download_asset` (lines 97–119): the bare `except Exception`
turns every escaping exception into `False`, so the call always returns. -/
def download_asset (f : FetchResult) : Except PyErr Bool :=
  match tryDownloadBody f with
  | .ok b => .ok b
  | .error _ => .ok false

/-- The download loop of `scrape_page_combined` (lines 240–247): each pair is
attempted in turn; `downloadOk u` is whether `download_asset` returned `True`
for that URL.  Returns (the `url_to_local` outcome map, the attempted URLs). -/
def downloadLoop (downloadOk : String → Bool) :
    List (String × String) → List (String × String) × List String
  | [] => ([], [])
  | (u, lp) :: rest =>
    let r := downloadLoop downloadOk rest
    (if downloadOk u then (u, lp) :: r.1 else r.1, u :: r.2)

/-- The initial-fetch phase of `scrape_page_combined` (lines 188–209): only
`requests.exceptions.HTTPError` is caught (falling back to the Selenium page
source, itself fallible); every other exception escapes the function. -/
def pageFetchPhase (direct : FetchResult) (seleniumHtml : Option (List Nat)) :
    Except PyErr (List Nat) :=
  match direct with
  | .ok body => .ok body
  | .httpError _ =>
    match seleniumHtml with
    | some h => .ok h
    | none => .error (.other "WebDriverException")
  | .connError => .error .connectionError
  | .timeoutError => .error .timeout

/-- One referencing occurrence in the parsed page: tag, attribute, value
(`""` both for a missing attribute and for an empty one — BeautifulSoup's
`el.get` followed by the source's falsiness test treats them alike). -/
structure DocElem where
  tag : String
  attrName : String
  val : String
deriving Repr, DecidableEq

/-- The four shapes rewritten by `scrape_page_combined` (line 250). -/
def rewriteShapes : List (String × String) :=
  [("img", "src"), ("script", "src"), ("link", "href"), ("a", "href")]

/-- Dictionary lookup `url_to_local[full]` on the outcome association list. -/
def lookupOutcome (outcome : List (String × String)) (k : String) : Option String :=
  (outcome.find? (fun pr => pr.1 == k)).map Prod.snd

/-- The rewrite pass of `scrape_page_combined` (lines 250–257) on one
occurrence: skip falsy values, join against the page URL, replace by the
output-root-relative local path on a hit, leave unchanged on a miss. -/
def rewriteElem (cwd page_url output_dir : String)
    (outcome : List (String × String)) (e : DocElem) : DocElem :=
  if rewriteShapes.contains (e.tag, e.attrName) then
    if e.val = "" then e
    else
      match lookupOutcome outcome (urljoin page_url e.val) with
      | some lp => { e with val := pyReplaceChar (relpath cwd lp output_dir) '/' "/" }
      | none => e
  else e

/-- The rewrite pass over the whole document. -/
def rewriteDoc (cwd page_url output_dir : String)
    (outcome : List (String × String)) (doc : List DocElem) : List DocElem :=
  doc.map (rewriteElem cwd page_url output_dir outcome)

/-- One entry of the Chrome performance log, already JSON-decoded to the two
fields `get_dynamic_urls` reads. -/
structure LogEntry where
  method : String
  url : String
deriving Repr, DecidableEq

/-- The extension allowlist of `get_dynamic_urls` (lines 158–160). -/
def dynamicExts : List String :=
  [".css", ".js", ".png", ".jpg", ".jpeg", ".woff", ".woff2", ".svg", ".json"]

/-- The per-URL filter of `get_dynamic_urls`: `u.lower().endswith(ext)` on the
whole URL string. -/
def keepDynamicUrl (u : String) : Bool :=
  dynamicExts.any (fun ext => strEndsWithS (pyLower u) ext)

/-- The log-filtering loop of `get_dynamic_urls` (lines 153–162). -/
def dynamicUrlsFromLog (logs : List LogEntry) : List String :=
  (logs.filter (fun e => e.method == "Network.requestWillBeSent" && keepDynamicUrl e.url)).map
    LogEntry.url

/-- `main.py` `get_dynamic_urls` (lines 143–162) as a run over the session
lifecycle: `navOk` is whether `driver.get` (and the settle sleep) returns,
`logOk` whether `driver.get_log` returns.  The second component records
whether `driver.quit()` was executed — in the source it is the statement
straight after `get_log`, with no `try`/`finally` around it. -/
def get_dynamic_urls_run (navOk logOk : Bool) (logs : List LogEntry) :
    Except PyErr (List String) × Bool :=
  match navOk with
  | false => (Except.error (PyErr.other "navigation"), false)
  | true =>
    match logOk with
    | false => (Except.error (PyErr.other "get_log"), false)
    | true => (Except.ok (dynamicUrlsFromLog logs), true)

/-! ### Persisted output as a file-system map (claims about on-disk results) -/

/-- The observable file system: path → contents. -/
abbrev FileSys : Type := String → Option (List Nat)

/-- `open(path, 'wb').write(bytes)`: overwrite semantics. -/
def fsWrite (fs : FileSys) (p : String) (b : List Nat) : FileSys :=
  fun q => if q = p then some b else fs q

/-- Perform a list of writes in order. -/
def applyWrites : FileSys → List (String × List Nat) → FileSys
  | fs, [] => fs
  | fs, (p, b) :: ws => applyWrites (fsWrite fs p b) ws

/-- The last write to `q` in a write list, if any. -/
def lastWrite : List (String × List Nat) → String → Option (List Nat)
  | [], _ => none
  | (p, b) :: ws, q =>
    match lastWrite ws q with
    | some b2 => some b2
    | none => if q = p then some b else none

/-- All file writes of one `scrape_page_combined` run (lines 240–247 and
260–267): each successfully fetched asset body at its `make_local_path`
location, then the serialized page at `output_dir/index.html`.  `body u` is
the response body for a URL whose download succeeded, `none` for a failed
one; `html` the serialized (prettified) document. -/
def scrapeWrites (output_dir page_url : String) (urls : List String)
    (body : String → Option (List Nat)) (html : List Nat) : List (String × List Nat) :=
  (urls.filterMap (fun u =>
      (body (make_local_path output_dir u page_url).2).map
        (fun bs => ((make_local_path output_dir u page_url).1, bs))))
    ++ [(pjoin2 output_dir "index.html", html)]

/-- Effect of one `scrape_page_combined` run on the file system. -/
def scrapeRun (output_dir page_url : String) (urls : List String)
    (body : String → Option (List Nat)) (html : List Nat) (fs : FileSys) : FileSys :=
  applyWrites fs (scrapeWrites output_dir page_url urls body html)

/-! ### The crawler (`scrape_with_crawling`, lines 273–329) -/

/-- Crawler state: the `visited` set, the `to_visit` queue, the `count` of
successfully scraped pages, plus two observation traces — every scrape
attempt tagged with the value of `count` at the moment it started, and the
list of successfully scraped (fragment-stripped) URLs. -/
structure CrawlState where
  visited : List String
  toVisit : List String
  count : Nat
  attempts : List (Nat × String)
  scraped : List String
deriving Repr, DecidableEq

/-- One iteration of the crawler's `while` body (lines 298–327): pop, strip
the fragment, skip if visited; otherwise attempt the scrape — on success add
to `visited`, bump `count` and enqueue the same-domain links of the page
(`linkFetch` is the link-extraction refetch, `none` when it raises), on
failure (`scrape_page_combined` raising) change nothing else. -/
def processOne (domain : String) (scrapeOk : String → Bool)
    (linkFetch : String → Option (List String)) (st : CrawlState) : CrawlState :=
  match st.toVisit with
  | [] => st
  | current :: rest =>
    let clean := (urldefrag current).1
    if st.visited.contains clean then
      { st with toVisit := rest }
    else if scrapeOk clean then
      let visited1 := clean :: st.visited
      let newLinks :=
        match linkFetch clean with
        | none => []
        | some hrefs =>
          (hrefs.map (fun h => urljoin clean h)).filter
            (fun href => (urlparse href "").netloc == domain
              && !(visited1.contains (urldefrag href).1))
      { visited := visited1
        toVisit := rest ++ newLinks
        count := st.count + 1
        attempts := st.attempts ++ [(st.count, clean)]
        scraped := st.scraped ++ [clean] }
    else
      { st with toVisit := rest, attempts := st.attempts ++ [(st.count, clean)] }

/-- The crawler's `while to_visit and count < max_pages` loop, with explicit
fuel (the source loop terminates because queue growth is bounded by the
`count` bound; every claim below holds for every fuel). -/
def crawlLoop (domain : String) (maxPages : Nat) (scrapeOk : String → Bool)
    (linkFetch : String → Option (List String)) : Nat → CrawlState → CrawlState
  | 0, st => st
  | fuel + 1, st =>
    if st.toVisit ≠ [] ∧ st.count < maxPages then
      crawlLoop domain maxPages scrapeOk linkFetch fuel
        (processOne domain scrapeOk linkFetch st)
    else st

/-- Modelled from the spec: the extension-to-category table exactly as §4.1
words it, used to check that the source's conditional chain refines it. -/
def specCategoryOfExt (ext : String) : String :=
  if ext = ".css" then "css"
  else if ext = ".js" then "js"
  else if [".png", ".jpg", ".jpeg", ".gif", ".svg", ".webp", ".ico"].contains ext then "images"
  else "assets"

/-! ## Helper lemmas -/

/-- Looking a path up after a list of overwriting writes sees the last write
to that path, or the prior contents when the path was never written. -/
lemma applyWrites_lookup : ∀ (ws : List (String × List Nat)) (fs : FileSys) (q : String),
    applyWrites fs ws q =
      match lastWrite ws q with
      | some b => some b
      | none => fs q := by
  intro ws
  induction ws with
  | nil => intro fs q; rfl
  | cons w ws ih =>
    intro fs q
    obtain ⟨p, b⟩ := w
    have h1 : applyWrites fs ((p, b) :: ws) q = applyWrites (fsWrite fs p b) ws q := rfl
    rw [h1, ih]
    cases h : lastWrite ws q with
    | some b2 => simp [lastWrite, h]
    | none =>
      simp only [lastWrite, h]
      unfold fsWrite
      by_cases hq : q = p <;> simp [hq]

/-- Replaying the same write list over its own result changes nothing. -/
lemma applyWrites_idem (ws : List (String × List Nat)) (fs : FileSys) :
    applyWrites (applyWrites fs ws) ws = applyWrites fs ws := by
  funext q
  rw [applyWrites_lookup, applyWrites_lookup]
  cases h : lastWrite ws q <;> simp [h]

/-- One crawler iteration either changes none of count/attempts/scraped (empty
queue or already-visited URL), or records one attempt at the current count —
bumping the count and the scraped list exactly on success. -/
lemma processOne_cases (domain : String) (scrapeOk : String → Bool)
    (linkFetch : String → Option (List String)) (st : CrawlState) :
    ((processOne domain scrapeOk linkFetch st).count = st.count
      ∧ (processOne domain scrapeOk linkFetch st).attempts = st.attempts
      ∧ (processOne domain scrapeOk linkFetch st).scraped = st.scraped)
  ∨ (∃ u, (processOne domain scrapeOk linkFetch st).count = st.count + 1
      ∧ (processOne domain scrapeOk linkFetch st).attempts = st.attempts ++ [(st.count, u)]
      ∧ (processOne domain scrapeOk linkFetch st).scraped = st.scraped ++ [u])
  ∨ (∃ u, (processOne domain scrapeOk linkFetch st).count = st.count
      ∧ (processOne domain scrapeOk linkFetch st).attempts = st.attempts ++ [(st.count, u)]
      ∧ (processOne domain scrapeOk linkFetch st).scraped = st.scraped) := by
  unfold processOne
  cases h : st.toVisit with
  | nil => exact Or.inl ⟨rfl, rfl, rfl⟩
  | cons current rest =>
    by_cases h1 : (urldefrag current).1 ∈ st.visited
    · refine Or.inl ?_
      refine ⟨?_, ?_, ?_⟩ <;> simp [h1]
    · by_cases h2 : scrapeOk (urldefrag current).1 = true
      · refine Or.inr (Or.inl ⟨(urldefrag current).1, ?_, ?_, ?_⟩) <;> simp [h1, h2]
      · refine Or.inr (Or.inr ⟨(urldefrag current).1, ?_, ?_, ?_⟩) <;> simp [h1, h2]

/-- Invariant of the crawler loop: the scraped-page count never passes
`maxPages`, it always equals the number of scraped pages, and every attempt
on record started while the count was still below `maxPages`. -/
lemma crawlLoop_inv (domain : String) (maxPages : Nat) (scrapeOk : String → Bool)
    (linkFetch : String → Option (List String)) :
    ∀ (fuel : Nat) (st : CrawlState),
      st.count ≤ maxPages →
      st.scraped.length = st.count →
      (∀ a ∈ st.attempts, a.1 < maxPages) →
      (crawlLoop domain maxPages scrapeOk linkFetch fuel st).count ≤ maxPages
    ∧ (crawlLoop domain maxPages scrapeOk linkFetch fuel st).scraped.length
        = (crawlLoop domain maxPages scrapeOk linkFetch fuel st).count
    ∧ (∀ a ∈ (crawlLoop domain maxPages scrapeOk linkFetch fuel st).attempts,
        a.1 < maxPages) := by
  intro fuel
  induction fuel with
  | zero => intro st h1 h2 h3; exact ⟨h1, h2, h3⟩
  | succ n ih =>
    intro st h1 h2 h3
    rw [crawlLoop]
    split
    · rename_i hg
      have hlt : st.count < maxPages := hg.2
      rcases processOne_cases domain scrapeOk linkFetch st with
        ⟨hc, ha, hs⟩ | ⟨u, hc, ha, hs⟩ | ⟨u, hc, ha, hs⟩
      · exact ih _ (by rw [hc]; exact h1) (by rw [hs, hc]; exact h2) (by rw [ha]; exact h3)
      · refine ih _ ?_ ?_ ?_
        · rw [hc]; omega
        · rw [hs, hc, List.length_append, h2]; rfl
        · rw [ha]
          intro a hmem
          rcases List.mem_append.mp hmem with hmem | hmem
          · exact h3 a hmem
          · rcases List.mem_singleton.mp hmem with rfl
            exact hlt
      · refine ih _ (by rw [hc]; exact h1) (by rw [hs, hc]; exact h2) ?_
        rw [ha]
        intro a hmem
        rcases List.mem_append.mp hmem with hmem | hmem
        · exact h3 a hmem
        · rcases List.mem_singleton.mp hmem with rfl
          exact hlt
    · exact ⟨h1, h2, h3⟩

/-- Concrete crawl scenario: start page linking to five same-domain pages. -/
def scenarioLinks (u : String) : Option (List String) :=
  if u = "http://x.test/" then some ["/p1", "/p2", "/p3", "/p4", "/p5"] else some []

/-- Initial crawler state for the concrete scenario. -/
def crawlScenarioStart : CrawlState := ⟨[], ["http://x.test/"], 0, [], []⟩

/-- The concrete scenario run with `max_pages = 2`. -/
def crawlScenario : CrawlState :=
  crawlLoop "x.test" 2 (fun _ => true) scenarioLinks 10 crawlScenarioStart

/-! ## Claim theorems -/

/-- C1 counterexample: the claim as stated fails on an empty attribute value.
`<img src="">` joins (per `urljoin`) to the page URL itself; when the page URL
is a key of the outcome map — possible, e.g. an asset-suffixed page captured
by dynamic discovery — the claim demands the attribute be rewritten to
`assets/d.json`, yet the source's falsiness test skips it and leaves `""`. -/
theorem rewrite_empty_reference_counterexample :
    lookupOutcome [("http://x.test/d.json", "dl/assets/d.json")]
        (urljoin "http://x.test/d.json" "") = some "dl/assets/d.json"
  ∧ (rewriteElem "/" "http://x.test/d.json" "dl"
        [("http://x.test/d.json", "dl/assets/d.json")] ⟨"img", "src", ""⟩).val = ""
  ∧ pyReplaceChar (relpath "/" "dl/assets/d.json" "dl") '/' "/" = "assets/d.json"
  ∧ ("" : String) ≠ "assets/d.json" := by decide

/-- C1 (amended): for every rewritten-shape reference with a nonempty value,
a hit in the outcome map replaces the value with that entry's local path made
relative to the output root (separators forced to forward slashes), a miss
leaves it byte-identical; an empty value is always left unchanged; and the
document pass is exactly the element rewrite mapped over the document. -/
theorem rewrite_matched_and_unmatched :
    (∀ cwd page_url output_dir outcome (e : DocElem),
        rewriteShapes.contains (e.tag, e.attrName) = true →
        e.val ≠ "" →
        ∀ lp, lookupOutcome outcome (urljoin page_url e.val) = some lp →
          (rewriteElem cwd page_url output_dir outcome e).val
            = pyReplaceChar (relpath cwd lp output_dir) '/' "/")
  ∧ (∀ cwd page_url output_dir outcome (e : DocElem),
        lookupOutcome outcome (urljoin page_url e.val) = none →
          (rewriteElem cwd page_url output_dir outcome e).val = e.val)
  ∧ (∀ cwd page_url output_dir outcome (e : DocElem),
        e.val = "" → rewriteElem cwd page_url output_dir outcome e = e)
  ∧ (∀ cwd page_url output_dir outcome (doc : List DocElem),
        rewriteDoc cwd page_url output_dir outcome doc
          = doc.map (rewriteElem cwd page_url output_dir outcome)) := by
  refine ⟨?_, ?_, ?_, fun _ _ _ _ _ => rfl⟩
  · intro cwd pu od oc e hs hne lp hlp
    have hs' : (e.tag, e.attrName) ∈ rewriteShapes := by simpa using hs
    simp [rewriteElem, hs', hne, hlp]
  · intro cwd pu od oc e hn
    by_cases hs : (e.tag, e.attrName) ∈ rewriteShapes <;>
      by_cases hne : e.val = "" <;> simp [rewriteElem, hs, hne, hn]
  · intro cwd pu od oc e he
    by_cases hs : (e.tag, e.attrName) ∈ rewriteShapes <;>
      simp [rewriteElem, hs, he]

/-- C1 witness: the amended theorem applied at a concrete matched reference. -/
theorem rewrite_matched_and_unmatched_witness :
    rewriteShapes.contains ("img", "src") = true
  ∧ ("logo.png" : String) ≠ ""
  ∧ lookupOutcome [("http://x.test/logo.png", "dl/images/logo.png")]
        (urljoin "http://x.test/" "logo.png") = some "dl/images/logo.png"
  ∧ (rewriteElem "/" "http://x.test/" "dl"
        [("http://x.test/logo.png", "dl/images/logo.png")] ⟨"img", "src", "logo.png"⟩).val
      = pyReplaceChar (relpath "/" "dl/images/logo.png" "dl") '/' "/" :=
  ⟨by decide, by decide, by decide,
    rewrite_matched_and_unmatched.1 "/" "http://x.test/" "dl"
      [("http://x.test/logo.png", "dl/images/logo.png")] ⟨"img", "src", "logo.png"⟩
      (by decide) (by decide) "dl/images/logo.png" (by decide)⟩

/-- C2: the download loop's outcome map holds exactly the pairs whose download
succeeded, every pair is attempted regardless of earlier failures, and in the
concrete three-asset run with the second failing the outcome holds exactly
the first and third while all three were attempted. -/
theorem download_loop_isolates_failures :
    (∀ (downloadOk : String → Bool) (ps : List (String × String)),
        (downloadLoop downloadOk ps).1 = ps.filter (fun pr => downloadOk pr.1))
  ∧ (∀ (downloadOk : String → Bool) (ps : List (String × String)),
        (downloadLoop downloadOk ps).2 = ps.map Prod.fst)
  ∧ (∀ (downloadOk : String → Bool) (ps : List (String × String)) (u lp : String),
        (u, lp) ∈ (downloadLoop downloadOk ps).1 ↔ (u, lp) ∈ ps ∧ downloadOk u = true)
  ∧ (downloadLoop (fun u => u != "http://x.test/b.css")
        [("http://x.test/a.css", "dl/css/a.css"),
         ("http://x.test/b.css", "dl/css/b.css"),
         ("http://x.test/c.js", "dl/js/c.js")]).1
      = [("http://x.test/a.css", "dl/css/a.css"), ("http://x.test/c.js", "dl/js/c.js")]
  ∧ (downloadLoop (fun u => u != "http://x.test/b.css")
        [("http://x.test/a.css", "dl/css/a.css"),
         ("http://x.test/b.css", "dl/css/b.css"),
         ("http://x.test/c.js", "dl/js/c.js")]).2
      = ["http://x.test/a.css", "http://x.test/b.css", "http://x.test/c.js"] := by
  have h1 : ∀ (f : String → Bool) (ps : List (String × String)),
      (downloadLoop f ps).1 = ps.filter (fun pr => f pr.1) := by
    intro f ps
    induction ps with
    | nil => rfl
    | cons a rest ih =>
      obtain ⟨u, lp⟩ := a
      by_cases h : f u = true <;> simp [downloadLoop, List.filter_cons, h, ih]
  refine ⟨h1, ?_, ?_, by decide, by decide⟩
  · intro f ps
    induction ps with
    | nil => rfl
    | cons a rest ih =>
      obtain ⟨u, lp⟩ := a
      simp [downloadLoop, ih]
  · intro f ps u lp
    rw [h1]
    simp [List.mem_filter]

/-- C3: resolution as the claim states it — a netloc-less reference is first
joined against the page URL, a netloc-bearing one is taken as is; the local
path is output-root/category/normalized-stripped-path where the category is
derived case-insensitively from the final path's extension and always falls
in one of the four classes (with the spec's own table refined by the
source's conditional chain, and the spec's §8 examples evaluated). -/
theorem make_local_path_resolution :
    (∀ base_dir u p, (urlparse u "").netloc = "" →
        (make_local_path base_dir u p).2 = urljoin p u)
  ∧ (∀ base_dir u p, (urlparse u "").netloc ≠ "" →
        (make_local_path base_dir u p).2 = u)
  ∧ (∀ base_dir u p,
        (make_local_path base_dir u p).1
          = pjoin3 base_dir
              (categorize_asset
                (normpath (lstripSlash (urlparse (make_local_path base_dir u p).2 "").path)))
              (normpath (lstripSlash (urlparse (make_local_path base_dir u p).2 "").path)))
  ∧ (∀ path, categorize_asset path = "css" ∨ categorize_asset path = "js"
        ∨ categorize_asset path = "images" ∨ categorize_asset path = "assets")
  ∧ (∀ path, categorize_asset path = specCategoryOfExt (pyLower (splitext path).2))
  ∧ categorize_asset "style.CSS" = "css"
  ∧ categorize_asset "photo.PNG" = "images"
  ∧ categorize_asset "data.bin" = "assets" := by
  refine ⟨?_, ?_, ?_, ?_, ?_, by decide, by decide, by decide⟩
  · intro b u p h; simp [make_local_path, h]
  · intro b u p h; simp [make_local_path, h]
  · intro b u p
    by_cases h : (urlparse u "").netloc = "" <;> simp [make_local_path, h]
  · intro path
    simp only [categorize_asset]
    split
    · exact Or.inl rfl
    split
    · exact Or.inr (Or.inl rfl)
    split
    · exact Or.inr (Or.inr (Or.inl rfl))
    · exact Or.inr (Or.inr (Or.inr rfl))
  · intro path
    simp only [categorize_asset, specCategoryOfExt]

/-- C3 witness: both resolution branches at concrete inputs. -/
theorem make_local_path_resolution_witness :
    (urlparse "css/style.css" "").netloc = ""
  ∧ (make_local_path "dl" "css/style.css" "http://x.test/a/").2
      = urljoin "http://x.test/a/" "css/style.css"
  ∧ (urlparse "http://cdn.test/app.js" "").netloc ≠ ""
  ∧ (make_local_path "dl" "http://cdn.test/app.js" "http://x.test/").2
      = "http://cdn.test/app.js" :=
  ⟨by decide,
    make_local_path_resolution.1 "dl" "css/style.css" "http://x.test/a/" (by decide),
    by decide,
    make_local_path_resolution.2.1 "dl" "http://cdn.test/app.js" "http://x.test/" (by decide)⟩

/-- C4 counterexample: the canonical URL returned by resolution keeps its
fragment — `#frag` survives into the dedup/outcome key, contradicting the
claimed fragment stripping. -/
theorem canonical_url_fragment_counterexample :
    (make_local_path "dl" "http://x.test/a.png#frag" "http://x.test/").2
      = "http://x.test/a.png#frag"
  ∧ (urlparse "http://x.test/a.png#frag" "").fragment = "frag"
  ∧ (urlparse (make_local_path "dl" "http://x.test/a.png#frag" "http://x.test/").2 "").fragment
      ≠ "" := by decide

/-- C4 (amended): the canonical URL is the reference joined against the page
URL when the reference has no network-location component and the reference
unchanged otherwise; in particular the fragment of a netloc-bearing reference
is preserved verbatim, never stripped. -/
theorem canonical_url_amended :
    (∀ base_dir u p,
        (make_local_path base_dir u p).2
          = if (urlparse u "").netloc = "" then urljoin p u else u)
  ∧ (∀ base_dir u p, (urlparse u "").netloc ≠ "" →
        (urlparse (make_local_path base_dir u p).2 "").fragment
          = (urlparse u "").fragment) := by
  constructor
  · intro b u p; rfl
  · intro b u p h; simp [make_local_path, h]

/-- C4 witness: the amended theorem applied at a fragment-bearing reference. -/
theorem canonical_url_amended_witness :
    (urlparse "http://x.test/b.png#sec" "").netloc ≠ ""
  ∧ (urlparse (make_local_path "dl" "http://x.test/b.png#sec" "http://x.test/").2 "").fragment
      = (urlparse "http://x.test/b.png#sec" "").fragment :=
  ⟨by decide,
    canonical_url_amended.2 "dl" "http://x.test/b.png#sec" "http://x.test/" (by decide)⟩

/-- C5: one scrape run's writes are a pure function of the page URL, asset
set and upstream bodies; re-running the identical scrape over its own output
file system (overwriting each deterministic local path and `index.html`)
leaves the file system byte-identical. -/
theorem scrape_rerun_idempotent :
    ∀ (output_dir page_url : String) (urls : List String)
      (body : String → Option (List Nat)) (html : List Nat) (fs : FileSys),
      scrapeRun output_dir page_url urls body html
          (scrapeRun output_dir page_url urls body html fs)
        = scrapeRun output_dir page_url urls body html fs := by
  intro o p us b h fs
  unfold scrapeRun
  exact applyWrites_idem _ _

/-- C6 counterexample: a connection failure or timeout raised by the initial
page fetch is not handled inside the fetch phase — it escapes (only
`requests.exceptions.HTTPError` is caught for the Selenium fallback). -/
theorem transport_error_propagates_counterexample :
    pageFetchPhase FetchResult.connError (some [60]) = Except.error PyErr.connectionError
  ∧ pageFetchPhase FetchResult.timeoutError (some [60]) = Except.error PyErr.timeout :=
  ⟨rfl, rfl⟩

/-- C6 (amended): a single asset download contains every error inside its own
call (the bare `except` always yields a boolean), and the initial page fetch
falls back to the rendered-browser session exactly on an HTTP error response
— but a connection failure or timeout during the initial fetch propagates out
of the page scrape. -/
theorem fetch_error_scoping_amended :
    (∀ f, ∃ b, download_asset f = Except.ok b)
  ∧ (∀ s h, pageFetchPhase (FetchResult.httpError s) (some h) = Except.ok h)
  ∧ (∀ s, pageFetchPhase (FetchResult.httpError s) none
        = Except.error (PyErr.other "WebDriverException"))
  ∧ (∀ body sel, pageFetchPhase (FetchResult.ok body) sel = Except.ok body)
  ∧ (∀ sel, pageFetchPhase FetchResult.connError sel = Except.error PyErr.connectionError)
  ∧ (∀ sel, pageFetchPhase FetchResult.timeoutError sel = Except.error PyErr.timeout) := by
  refine ⟨?_, fun s h => rfl, fun s => rfl, fun b sel => rfl, fun sel => rfl, fun sel => rfl⟩
  intro f
  cases f <;> exact ⟨_, rfl⟩

/-- C7 counterexample: when navigation raises, the run ends with the session
still open (`driver.quit()` is the statement after `get_log`, with no
`finally`), and likewise when log capture raises. -/
theorem browser_session_leak_counterexample :
    (get_dynamic_urls_run false true []).2 = false
  ∧ (get_dynamic_urls_run false true []).1 = Except.error (PyErr.other "navigation")
  ∧ (get_dynamic_urls_run true false []).2 = false :=
  ⟨rfl, rfl, rfl⟩

/-- C7 (amended): the dynamic-URL discoverer tears the browser session down
exactly on the fully successful path — the session is closed iff both
navigation and log capture return. -/
theorem browser_teardown_amended :
    ∀ (navOk logOk : Bool) (logs : List LogEntry),
      (get_dynamic_urls_run navOk logOk logs).2 = (navOk && logOk) := by
  intro n l logs
  cases n <;> cases l <;> rfl

/-- C8 counterexample: the filter tests the whole URL string, not the path
component — an asset whose path ends in `.css` but that carries a query
string is discarded, while an API call whose query value ends in `.js` is
kept. -/
theorem dynamic_filter_query_string_counterexample :
    (urlparse "http://x.test/style.css?v=1" "").path = "/style.css"
  ∧ strEndsWithS "/style.css" ".css" = true
  ∧ dynamicUrlsFromLog [⟨"Network.requestWillBeSent", "http://x.test/style.css?v=1"⟩] = []
  ∧ (urlparse "http://x.test/api?cb=a.js" "").path = "/api"
  ∧ strEndsWithS "/api" ".js" = false
  ∧ dynamicUrlsFromLog [⟨"Network.requestWillBeSent", "http://x.test/api?cb=a.js"⟩]
      = ["http://x.test/api?cb=a.js"] := by decide

/-- C8 (amended): a captured request is kept iff its method is
`Network.requestWillBeSent` and the lower-cased *whole URL string* ends in
one of `.css .js .png .jpg .jpeg .woff .woff2 .svg .json`. -/
theorem dynamic_filter_amended :
    ∀ (logs : List LogEntry) (u : String),
      u ∈ dynamicUrlsFromLog logs ↔
        ∃ e, e ∈ logs ∧ e.method = "Network.requestWillBeSent" ∧ e.url = u
          ∧ dynamicExts.any (fun ext => strEndsWithS (pyLower u) ext) = true := by
  intro logs u
  unfold dynamicUrlsFromLog keepDynamicUrl
  simp only [List.mem_map, List.mem_filter, Bool.and_eq_true, beq_iff_eq]
  constructor
  · rintro ⟨e, ⟨he, hm, hk⟩, rfl⟩
    exact ⟨e, he, hm, rfl, hk⟩
  · rintro ⟨e, he, hm, rfl, hk⟩
    exact ⟨e, ⟨he, hm, hk⟩, rfl⟩

/-- C9: the crawler never scrapes more than `max_pages` pages, every scrape
attempt starts strictly below the bound, and in the concrete scenario
(`max_pages = 2`, start page linking to five same-domain pages) exactly two
pages are scraped, exactly two attempts happen, and the loop stops with URLs
still queued. -/
theorem crawl_bound_max_pages :
    (∀ domain maxPages (scrapeOk : String → Bool)
        (linkFetch : String → Option (List String)) fuel (st : CrawlState),
        st.count ≤ maxPages →
        st.scraped.length = st.count →
        (∀ a ∈ st.attempts, a.1 < maxPages) →
        (crawlLoop domain maxPages scrapeOk linkFetch fuel st).count ≤ maxPages
      ∧ (crawlLoop domain maxPages scrapeOk linkFetch fuel st).scraped.length
          = (crawlLoop domain maxPages scrapeOk linkFetch fuel st).count
      ∧ (∀ a ∈ (crawlLoop domain maxPages scrapeOk linkFetch fuel st).attempts,
          a.1 < maxPages))
  ∧ crawlScenario.scraped = ["http://x.test/", "http://x.test/p1"]
  ∧ crawlScenario.count = 2
  ∧ crawlScenario.attempts = [(0, "http://x.test/"), (1, "http://x.test/p1")]
  ∧ crawlScenario.toVisit ≠ [] := by
  refine ⟨?_, by decide, by decide, by decide, by decide⟩
  intro domain maxPages scrapeOk linkFetch fuel st h1 h2 h3
  exact crawlLoop_inv domain maxPages scrapeOk linkFetch fuel st h1 h2 h3

/-- C9 witness: the bound applied to the concrete scenario's initial state. -/
theorem crawl_bound_max_pages_witness :
    crawlScenarioStart.count ≤ 2
  ∧ (crawlLoop "x.test" 2 (fun _ => true) scenarioLinks 10 crawlScenarioStart).count ≤ 2 :=
  ⟨by decide,
    (crawl_bound_max_pages.1 "x.test" 2 (fun _ => true) scenarioLinks 10 crawlScenarioStart
      (by decide) (by decide) (fun a h => absurd h (List.not_mem_nil a))).1⟩

/-- C10: when the scrape of a dequeued, unvisited URL raises, that iteration
leaves `visited`, `count` and the scraped list unchanged (only the pop and
the attempt record happen), so the same fragment-stripped URL is attempted
again whenever it is later dequeued while still unvisited. -/
theorem failed_scrape_preserves_state :
    ∀ (domain : String) (scrapeOk scrapeOk2 : String → Bool)
      (linkFetch linkFetch2 : String → Option (List String))
      (st st2 : CrawlState) (current : String) (rest : List String),
      st.toVisit = current :: rest →
      st.visited.contains (urldefrag current).1 = false →
      scrapeOk (urldefrag current).1 = false →
      (processOne domain scrapeOk linkFetch st).visited = st.visited
    ∧ (processOne domain scrapeOk linkFetch st).count = st.count
    ∧ (processOne domain scrapeOk linkFetch st).scraped = st.scraped
    ∧ (processOne domain scrapeOk linkFetch st).toVisit = rest
    ∧ (processOne domain scrapeOk linkFetch st).attempts
        = st.attempts ++ [(st.count, (urldefrag current).1)]
    ∧ (∀ current2 rest2, st2.toVisit = current2 :: rest2 →
        (urldefrag current2).1 = (urldefrag current).1 →
        st2.visited.contains (urldefrag current).1 = false →
        (processOne domain scrapeOk2 linkFetch2 st2).attempts
          = st2.attempts ++ [(st2.count, (urldefrag current).1)]) := by
  intro domain sOk sOk2 lf lf2 st st2 current rest h1 h2 h3
  have h2' : (urldefrag current).1 ∉ st.visited := by simpa using h2
  have key : processOne domain sOk lf st
      = { st with toVisit := rest, attempts := st.attempts ++ [(st.count, (urldefrag current).1)] } := by
    unfold processOne
    rw [h1]
    simp [h2', h3]
  refine ⟨by rw [key], by rw [key], by rw [key], by rw [key], by rw [key], ?_⟩
  intro c2 r2 g1 g2 g3
  have g3' : (urldefrag current).1 ∉ st2.visited := by simpa using g3
  by_cases h4 : sOk2 (urldefrag current).1 = true <;>
    simp [processOne, g1, g2, g3', h4]

/-- C10 witness: a failing scrape at a concrete state, and the retry attempt
recorded once the same fragment-stripped URL is dequeued again. -/
theorem failed_scrape_preserves_state_witness :
    ((⟨["http://x.test/old"], ["http://x.test/a#sec"], 1, [], ["http://x.test/old"]⟩ :
        CrawlState).toVisit = "http://x.test/a#sec" :: [])
  ∧ (processOne "x.test" (fun _ => false) (fun _ => none)
        ⟨["http://x.test/old"], ["http://x.test/a#sec"], 1, [], ["http://x.test/old"]⟩).count = 1
  ∧ (processOne "x.test" (fun _ => false) (fun _ => none)
        ⟨["http://x.test/old"], ["http://x.test/a#sec"], 1, [], ["http://x.test/old"]⟩).visited
      = ["http://x.test/old"]
  ∧ (processOne "x.test" (fun _ => true) (fun _ => none)
        ⟨[], ["http://x.test/a"], 1, [], []⟩).attempts = [(1, "http://x.test/a")] := by
  have h := failed_scrape_preserves_state "x.test" (fun _ => false) (fun _ => true)
    (fun _ => none) (fun _ => none)
    ⟨["http://x.test/old"], ["http://x.test/a#sec"], 1, [], ["http://x.test/old"]⟩
    ⟨[], ["http://x.test/a"], 1, [], []⟩
    "http://x.test/a#sec" [] rfl (by decide) rfl
  refine ⟨rfl, h.2.1, h.1, ?_⟩
  have h6 := h.2.2.2.2.2 "http://x.test/a" [] rfl (by decide) (by decide)
  simpa using h6
